import Mathlib

/-!
Verification development for the pistol network-probing engine.

Shallow embedding of the Rust sources:
  src/vs/vscan.rs  — service-version probing cascade (threads_vs_probe),
  src/hop.rs       — TTL-sweep hop estimation (ipv4_get_hops / ipv6_get_hops),
  src/ping.rs      — ping dispatcher, response classification and aggregation.

Network I/O is modelled by explicit oracles: a TCP stream is the list of byte
chunks the peer delivers on successive reads; fallible transport calls return
`Except`.  Bytes are `Nat`, durations are `Rat` (exact-arithmetic abstraction
of `f64` seconds).  Instrumentation (lists of attempted probe names, lists of
probed TTLs) records the observable trace of writes that the corresponding
Rust code performs.
-/

namespace Pistol

/-- A detected service identity (external database entity, consumed opaque). -/
structure VsMatch where
  name : String
deriving DecidableEq, Repr

/-- Protocol tag of a service probe (from the probe database). -/
inductive ProbesProtocol where
  | Tcp
  | Udp
deriving DecidableEq, Repr

/-- The probe part of a ServiceProbe entry: name, protocol and payload. -/
structure ProbeEntry where
  probename : String
  protocol : ProbesProtocol
  probestring : String
deriving DecidableEq, Repr

/-- A service-probe database entry.  `check` is the opaque pattern-matching
capability (`given response text, return zero or more matches`); the response
text is modelled as the byte list handed to it. -/
structure ServiceProbe where
  probe : ProbeEntry
  rarity : Option Nat
  ports : Option (List Nat)
  sslports : Option (List Nat)
  check : List Nat → List VsMatch

/-- TCP_BUFF_SIZE and UDP_BUFF_SIZE in vscan.rs. -/
def BUFF_SIZE : Nat := 4096

/-- The zero-initialised read buffer `[0u8; 4096]`. -/
def zeroBuff : List Nat := List.replicate BUFF_SIZE 0

/-- One `stream.read` into the fixed buffer: the `n` delivered bytes overwrite
the front of the buffer, the tail keeps its previous content. -/
def overlay (buf chunk : List Nat) : List Nat :=
  chunk ++ buf.drop chunk.length

/-- The read loop of tcp_null_probe / tcp_continue_probe.  `chunks` are the
successive non-empty reads (the loop stops at the first read returning 0 or
erroring).  Returns the final state of `recv_buff` and the accumulated
`recv_all_buff`; note the Rust code extends the accumulator with the WHOLE
buffer on every read, not just the `n` fresh bytes. -/
def readLoop (chunks : List (List Nat)) : List Nat × List Nat :=
  chunks.foldl (fun acc c =>
    let buf := overlay acc.1 c
    (buf, acc.2 ++ buf)) (zeroBuff, [])

/-- tcp_null_probe (vscan.rs lines 30-60): read everything the peer sends,
then, if anything arrived, check against every entry named "NULL".  Faithful
to the source, the text checked is `recv_buff` (the last read buffer), not
`recv_all_buff` (the accumulated data). -/
def tcp_null_probe (chunks : List (List Nat)) (service_probes : List ServiceProbe) :
    List VsMatch :=
  let rb := readLoop chunks
  if rb.2.length > 0 then
    service_probes.foldl (fun ret s =>
      if s.probe.probename = "NULL" then ret ++ s.check rb.1 else ret) []
  else []

/-- The check tcp_null_probe would perform on the full accumulated response
`recv_all_buff` — this is what the surrounding code builds the accumulator
for, and what the sibling function tcp_continue_probe actually does. -/
def tcp_null_probe_accumulated (chunks : List (List Nat))
    (service_probes : List ServiceProbe) : List VsMatch :=
  let rb := readLoop chunks
  if rb.2.length > 0 then
    service_probes.foldl (fun ret s =>
      if s.probe.probename = "NULL" then ret ++ s.check rb.2 else ret) []
  else []

/-- The recommended-port list of a probe for the TCP stage: `ports` then
`sslports` (vscan.rs lines 102-110). -/
def tcpPortsOf (sp : ServiceProbe) : List Nat :=
  sp.ports.getD [] ++ sp.sslports.getD []

/-- The gate deciding whether tcp_continue_probe attempts a probe
(vscan.rs lines 111-131): not NULL, TCP protocol, intensity at or above
rarity, and — only in restricted mode — destination port recommended. -/
def tcpGate (dst_port : Nat) (only_tcp_recommended : Bool) (intensity : Nat)
    (sp : ServiceProbe) : Bool :=
  sp.probe.probename ≠ "NULL" && sp.probe.protocol = ProbesProtocol.Tcp &&
    intensity ≥ sp.rarity.getD 0 &&
    (!only_tcp_recommended || (tcpPortsOf sp).contains dst_port)

/-- One attempt of the inner `run_probe` closure of tcp_continue_probe:
write the probe string (the oracle answers `Except.error` when the write
fails), read with the accumulate loop, check the accumulated text when
non-empty. -/
def runTcpProbe (resp : Except Unit (List (List Nat))) (sp : ServiceProbe) :
    Except Unit (List VsMatch) :=
  match resp with
  | Except.error e => Except.error e
  | Except.ok chunks =>
    let rb := readLoop chunks
    if rb.2.length > 0 then Except.ok (sp.check rb.2) else Except.ok []

/-- The probe loop of tcp_continue_probe.  `env i` is the stream's behaviour
for the i-th attempted probe.  Carries the attempt counter, the accumulated
matches and the trace of attempted probe names. -/
def tcpContinueAux (env : Nat → Except Unit (List (List Nat))) (dst_port : Nat)
    (only_tcp_recommended : Bool) (intensity : Nat) :
    List ServiceProbe → Nat → List VsMatch → List String →
    Except Unit (List VsMatch) × List String
  | [], _, ret, att => (Except.ok ret, att)
  | sp :: rest, i, ret, att =>
    if tcpGate dst_port only_tcp_recommended intensity sp then
      match runTcpProbe (env i) sp with
      | Except.error e => (Except.error e, att ++ [sp.probe.probename])
      | Except.ok r =>
        tcpContinueAux env dst_port only_tcp_recommended intensity rest (i + 1)
          (ret ++ r) (att ++ [sp.probe.probename])
    else
      tcpContinueAux env dst_port only_tcp_recommended intensity rest i ret att

/-- tcp_continue_probe (vscan.rs lines 62-135): iterate the database in order,
attempt every gated probe, accumulate all matches.  Also returns the trace of
attempted probe names. -/
def tcp_continue_probe (env : Nat → Except Unit (List (List Nat)))
    (dst_port : Nat) (only_tcp_recommended : Bool) (intensity : Nat)
    (service_probes : List ServiceProbe) :
    Except Unit (List VsMatch) × List String :=
  tcpContinueAux env dst_port only_tcp_recommended intensity service_probes 0 [] []

/-- The gate of the UDP loop (vscan.rs lines 192-212): not NULL, UDP protocol,
intensity at or above rarity, and in restricted mode the destination port must
be in `ports` (sslports are not consulted for UDP). -/
def udpGate (dst_port : Nat) (only_udp_recommended : Bool) (intensity : Nat)
    (sp : ServiceProbe) : Bool :=
  sp.probe.probename ≠ "NULL" && sp.probe.protocol = ProbesProtocol.Udp &&
    intensity ≥ sp.rarity.getD 0 &&
    (!only_udp_recommended || (sp.ports.getD []).contains dst_port)

/-- One attempt of the inner `run_probe` closure of udp_probe: send (the
oracle errors when the send fails), one `recv` into a fresh zeroed buffer
(`none` models a recv returning 0 or erroring), check the whole buffer when
bytes arrived. -/
def runUdpProbe (resp : Except Unit (Option (List Nat))) (sp : ServiceProbe) :
    Except Unit (List VsMatch) :=
  match resp with
  | Except.error e => Except.error e
  | Except.ok none => Except.ok []
  | Except.ok (some c) =>
    if c.length > 0 then Except.ok (sp.check (overlay zeroBuff c)) else Except.ok []

/-- The probe loop of udp_probe, with attempt counter, match accumulator and
attempted-name trace. -/
def udpAux (env : Nat → Except Unit (Option (List Nat))) (dst_port : Nat)
    (only_udp_recommended : Bool) (intensity : Nat) :
    List ServiceProbe → Nat → List VsMatch → List String →
    Except Unit (List VsMatch) × List String
  | [], _, ret, att => (Except.ok ret, att)
  | sp :: rest, i, ret, att =>
    if udpGate dst_port only_udp_recommended intensity sp then
      match runUdpProbe (env i) sp with
      | Except.error e => (Except.error e, att ++ [sp.probe.probename])
      | Except.ok r =>
        udpAux env dst_port only_udp_recommended intensity rest (i + 1)
          (ret ++ r) (att ++ [sp.probe.probename])
    else
      udpAux env dst_port only_udp_recommended intensity rest i ret att

/-- udp_probe (vscan.rs lines 137-216): socket setup (bind, timeouts,
connect — `setup` errors when any of these fail), then iterate the database
attempting every gated UDP probe, accumulating all matches. -/
def udp_probe (setup : Except Unit Unit)
    (env : Nat → Except Unit (Option (List Nat))) (dst_port : Nat)
    (only_udp_recommended : Bool) (intensity : Nat)
    (service_probes : List ServiceProbe) :
    Except Unit (List VsMatch) × List String :=
  match setup with
  | Except.error e => (Except.error e, [])
  | Except.ok _ =>
    udpAux env dst_port only_udp_recommended intensity service_probes 0 [] []

/-- The network environment one threads_vs_probe call runs against:
`connect = none` models a failed TCP connect; on success the stream supplies
the NULL-stage reads and a per-attempt behaviour for continuation probes.
`udpSetup`/`udpEnv` drive the UDP fallback socket. -/
structure VsEnv where
  connect : Option (List (List Nat) × (Nat → Except Unit (List (List Nat))))
  udpSetup : Except Unit Unit
  udpEnv : Nat → Except Unit (Option (List Nat))

/-- threads_vs_probe (vscan.rs lines 218-289): connect, NULL stage, TCP
continuation stage (unless only_null_probe), UDP fallback.  A failed connect
returns Ok with zero matches at once.  Result: the cascade's outcome plus the
traces of attempted TCP-continuation and UDP probe names.  Elapsed wall-clock
time is not modelled. -/
def threads_vs_probe (env : VsEnv) (dst_port : Nat) (only_null_probe : Bool)
    (only_tcp_recommended : Bool) (only_udp_recommended : Bool)
    (intensity : Nat) (service_probes : List ServiceProbe) :
    Except Unit (List VsMatch) × List String × List String :=
  match env.connect with
  | none => (Except.ok [], [], [])
  | some (nullChunks, contEnv) =>
    let null_probe_ret := tcp_null_probe nullChunks service_probes
    if null_probe_ret.length > 0 then
      (Except.ok null_probe_ret, [], [])
    else
      if !only_null_probe then
        match tcp_continue_probe contEnv dst_port only_tcp_recommended intensity
            service_probes with
        | (Except.error e, att) => (Except.error e, att, [])
        | (Except.ok tcp_ret, att) =>
          if tcp_ret.length > 0 then
            (Except.ok tcp_ret, att, [])
          else
            let udp := udp_probe env.udpSetup env.udpEnv dst_port
              only_udp_recommended intensity service_probes
            (udp.1, att, udp.2)
      else (Except.ok [], [], [])

/-- The TTL sweep loop shared by ipv4_get_hops and ipv6_get_hops (hop.rs):
walk the given TTL list in order; `send t` is the transport call at TTL `t`
(`Except.error` when the transport fails — propagated by `?`), `Except.ok
true` the distinguishing terminal-hop response.  Returns the result and the
trace of TTLs actually probed. -/
def getHopsAux (send : Nat → Except Unit Bool) :
    List Nat → Except Unit Nat × List Nat
  | [] => (Except.ok 0, [])
  | t :: ts =>
    match send t with
    | Except.error e => (Except.error e, [t])
    | Except.ok true => (Except.ok t, [t])
    | Except.ok false =>
      let r := getHopsAux send ts
      (r.1, t :: r.2)

/-- ipv4_get_hops (hop.rs lines 13-26): sweep TTL = 1..=30 with
send_icmp_ping_packet, return the first TTL answering true, else 0. -/
def ipv4_get_hops (send : Nat → Except Unit Bool) :
    Except Unit Nat × List Nat :=
  getHopsAux send (List.range' 1 30)

/-- ipv6_get_hops (hop.rs lines 28-41): identical sweep over
send_icmpv6_ping_packet. -/
def ipv6_get_hops (send : Nat → Except Unit Bool) :
    Except Unit Nat × List Nat :=
  getHopsAux send (List.range' 1 30)

/-- HostStatus of one ping trial (PingStatus in ping.rs). -/
inductive PingStatus where
  | Up
  | Down
  | Error
deriving DecidableEq, Repr

/-- Probing methods (PingMethods in ping.rs). -/
inductive PingMethods where
  | Syn
  | Ack
  | Udp
  | Icmp
  | Icmpv6
deriving DecidableEq, Repr

/-- Modelled from the spec: the transport-layer port-state vocabulary
`Open/Closed/Filtered/Unfiltered/OpenOrFiltered` (PortStatus lives in the
scan module, outside the given sources; the spec's glossary fixes exactly
these variants). -/
inductive PortStatus where
  | Open
  | Closed
  | Filtered
  | Unfiltered
  | OpenOrFiltered
deriving DecidableEq, Repr

/-- Errors a ping trial or run can surface: the per-trial "unsupported
method" error, a transport failure, or the fatal "cannot find source
address" configuration error of the dispatcher. -/
inductive PingError where
  | unsupportedPingMethod
  | transportFailure
  | cannotFindSourceAddress
deriving DecidableEq, Repr

/-- Round-trip time measured by the transport, in seconds; `Rat` is the
exact-arithmetic abstraction of `f64`. -/
abbrev Rtt := Rat

/-- The packet-transport collaborator for one IPv4 trial: each scan call is
keyed by the destination port it is given; ICMP carries no port. -/
structure TransportV4 where
  syn : Nat → Except PingError (PortStatus × Option Rtt)
  ack : Nat → Except PingError (PortStatus × Option Rtt)
  udp : Nat → Except PingError (PortStatus × Option Rtt)
  icmp : Except PingError (PingStatus × Option Rtt)

/-- The packet-transport collaborator for one IPv6 trial. -/
structure TransportV6 where
  syn : Nat → Except PingError (PortStatus × Option Rtt)
  ack : Nat → Except PingError (PortStatus × Option Rtt)
  udp : Nat → Except PingError (PortStatus × Option Rtt)
  icmpv6 : Except PingError (PingStatus × Option Rtt)

/-- SYN_PING_DEFAULT_PORT in ping.rs. -/
def SYN_PING_DEFAULT_PORT : Nat := 80

/-- ACK_PING_DEFAULT_PORT in ping.rs. -/
def ACK_PING_DEFAULT_PORT : Nat := 80

/-- UDP_PING_DEFAULT_PORT in ping.rs. -/
def UDP_PING_DEFAULT_PORT : Nat := 125

/-- threads_ping (ping.rs lines 173-237): one IPv4 trial.  Sends via the
transport and classifies: Syn — Open is Up, anything else Down; Ack —
Unfiltered is Up, anything else Down; Udp — Open is Up, anything else
(OpenOrFiltered included, the v4 arm is commented out in the source) Down;
Icmp passes the transport status through; Icmpv6 is unsupported here. -/
def threads_ping (tr : TransportV4) (method : PingMethods)
    (dst_port : Option Nat) : Except PingError (PingStatus × Option Rtt) :=
  match method with
  | PingMethods.Syn =>
    match tr.syn (dst_port.getD SYN_PING_DEFAULT_PORT) with
    | Except.error e => Except.error e
    | Except.ok (ret, rtt) =>
      match ret with
      | PortStatus.Open => Except.ok (PingStatus.Up, rtt)
      | _ => Except.ok (PingStatus.Down, rtt)
  | PingMethods.Ack =>
    match tr.ack (dst_port.getD ACK_PING_DEFAULT_PORT) with
    | Except.error e => Except.error e
    | Except.ok (ret, rtt) =>
      match ret with
      | PortStatus.Unfiltered => Except.ok (PingStatus.Up, rtt)
      | _ => Except.ok (PingStatus.Down, rtt)
  | PingMethods.Udp =>
    match tr.udp (dst_port.getD UDP_PING_DEFAULT_PORT) with
    | Except.error e => Except.error e
    | Except.ok (ret, rtt) =>
      match ret with
      | PortStatus.Open => Except.ok (PingStatus.Up, rtt)
      | _ => Except.ok (PingStatus.Down, rtt)
  | PingMethods.Icmp => tr.icmp
  | PingMethods.Icmpv6 => Except.error PingError.unsupportedPingMethod

/-- threads_ping6 (ping.rs lines 239-296): one IPv6 trial.  Same as the v4
path except that Udp also classifies OpenOrFiltered as Up, Icmpv6 passes
through, and Icmp is unsupported here. -/
def threads_ping6 (tr : TransportV6) (method : PingMethods)
    (dst_port : Option Nat) : Except PingError (PingStatus × Option Rtt) :=
  match method with
  | PingMethods.Syn =>
    match tr.syn (dst_port.getD SYN_PING_DEFAULT_PORT) with
    | Except.error e => Except.error e
    | Except.ok (ret, rtt) =>
      match ret with
      | PortStatus.Open => Except.ok (PingStatus.Up, rtt)
      | _ => Except.ok (PingStatus.Down, rtt)
  | PingMethods.Ack =>
    match tr.ack (dst_port.getD ACK_PING_DEFAULT_PORT) with
    | Except.error e => Except.error e
    | Except.ok (ret, rtt) =>
      match ret with
      | PortStatus.Unfiltered => Except.ok (PingStatus.Up, rtt)
      | _ => Except.ok (PingStatus.Down, rtt)
  | PingMethods.Udp =>
    match tr.udp (dst_port.getD UDP_PING_DEFAULT_PORT) with
    | Except.error e => Except.error e
    | Except.ok (ret, rtt) =>
      match ret with
      | PortStatus.Open => Except.ok (PingStatus.Up, rtt)
      | PortStatus.OpenOrFiltered => Except.ok (PingStatus.Up, rtt)
      | _ => Except.ok (PingStatus.Down, rtt)
  | PingMethods.Icmpv6 => tr.icmpv6
  | PingMethods.Icmp => Except.error PingError.unsupportedPingMethod

/-- Target addresses, abstracted (stands for Ipv4Addr / Ipv6Addr). -/
abbrev Addr := Nat

/-- One host of a Target: an address plus candidate ports. -/
structure Host where
  addr : Addr
  ports : List Nat

/-- PingResults (ping.rs lines 45-51): per-address status sequences and
latency sequences (HashMaps modelled as association lists with unique keys),
plus the two derived fields filled in by `enrichment`. -/
structure PingResults where
  pings : List (Addr × List PingStatus)
  rtts : List (Addr × List Rtt)
  avg_rtt : Option Rtt
  alive_hosts : Nat

/-- PingResults::new. -/
def PingResults.new : PingResults :=
  { pings := [], rtts := [], avg_rtt := none, alive_hosts := 0 }

/-- The map update both insert paths perform: push onto the existing entry,
or create a fresh one-element entry. -/
def assocPush {α : Type} (m : List (Addr × List α)) (k : Addr) (v : α) :
    List (Addr × List α) :=
  match m with
  | [] => [(k, [v])]
  | (k2, vs) :: rest =>
    if k2 = k then (k2, vs ++ [v]) :: rest else (k2, vs) :: assocPush rest k v

/-- PingResults::insert (ping.rs lines 102-124): always push the status;
push the rtt only when one was measured. -/
def PingResults.insert (r : PingResults) (dst : Addr) (ping_status : PingStatus)
    (rtt : Option Rtt) : PingResults :=
  { r with
    pings := assocPush r.pings dst ping_status,
    rtts := match rtt with
      | some t => assocPush r.rtts dst t
      | none => r.rtts }

/-- PingResults::enrichment (ping.rs lines 68-101): recompute avg_rtt as the
total of all rtt samples over their count (none when the count is zero), and
alive_hosts as the number of map entries whose status sequence contains an
Up (the source breaks at the first Up of each entry). -/
def PingResults.enrichment (r : PingResults) : PingResults :=
  let totals := r.rtts.foldl
    (fun acc p => (acc.1 + p.2.foldl (fun s t => s + t) 0, acc.2 + p.2.length))
    ((0 : Rtt), (0 : Nat))
  let avg_rtt := if totals.2 ≠ 0 then some (totals.1 / (totals.2 : Rtt)) else none
  let alive_hosts := r.pings.foldl
    (fun acc p => if p.2.contains PingStatus.Up then acc + 1 else acc) 0
  { r with avg_rtt := avg_rtt, alive_hosts := alive_hosts }

/-- The destination port a submitted trial uses (ping.rs lines 327-333):
the host's first configured port, unless none is configured or the method is
ICMP/ICMPv6. -/
def dstPortOf (method : PingMethods) (h : Host) : Option Nat :=
  match h.ports with
  | [] => none
  | p :: _ =>
    if method ≠ PingMethods.Icmp ∧ method ≠ PingMethods.Icmpv6 then some p
    else none

/-- The submission loop of `ping` (ping.rs lines 320-345): per host, resolve
a source address (an error or an unresolvable address aborts the run), then
submit one unit per trial.  `tr a k` is the transport behaviour of trial `k`
against address `a`.  The result is the list of (destination, task outcome)
messages the completion channel will carry. -/
def submitAll (resolve : Addr → Except PingError (Option Addr))
    (tr : Addr → Nat → TransportV4) (method : PingMethods) (tests : Nat) :
    List Host →
    Except PingError (List (Addr × Except PingError (PingStatus × Option Rtt)))
  | [] => Except.ok []
  | h :: rest =>
    match resolve h.addr with
    | Except.error e => Except.error e
    | Except.ok none => Except.error PingError.cannotFindSourceAddress
    | Except.ok (some _) =>
      match submitAll resolve tr method tests rest with
      | Except.error e => Except.error e
      | Except.ok units =>
        Except.ok ((List.range tests).map (fun k =>
          (h.addr, threads_ping (tr h.addr k) method (dstPortOf method h))) ++ units)

/-- The drain loop of `ping` (ping.rs lines 351-365): insert each arriving
message, downgrading a task error to an Error status with no rtt. -/
def drainInsert
    (msgs : List (Addr × Except PingError (PingStatus × Option Rtt))) :
    PingResults :=
  msgs.foldl (fun pr m =>
    match m.2 with
    | Except.ok (ping_status, rtt) => pr.insert m.1 ping_status rtt
    | Except.error _ => pr.insert m.1 PingStatus.Error none) PingResults.new

/-- ping (ping.rs lines 298-369): submit every (host, trial) unit, drain
exactly as many completion messages as were submitted, then enrich.
`complete` is the scheduler: it reorders the submitted units into completion
order (theorems hypothesise it yields a permutation). -/
def ping (resolve : Addr → Except PingError (Option Addr))
    (tr : Addr → Nat → TransportV4) (method : PingMethods) (hosts : List Host)
    (tests : Nat)
    (complete : List (Addr × Except PingError (PingStatus × Option Rtt)) →
      List (Addr × Except PingError (PingStatus × Option Rtt))) :
    Except PingError PingResults :=
  match submitAll resolve tr method tests hosts with
  | Except.error e => Except.error e
  | Except.ok units => Except.ok ((drainInsert (complete units)).enrichment)

/-- The submission loop of `ping6` (ping.rs lines 392-417), identical in
structure to the IPv4 one but running threads_ping6. -/
def submitAll6 (resolve : Addr → Except PingError (Option Addr))
    (tr : Addr → Nat → TransportV6) (method : PingMethods) (tests : Nat) :
    List Host →
    Except PingError (List (Addr × Except PingError (PingStatus × Option Rtt)))
  | [] => Except.ok []
  | h :: rest =>
    match resolve h.addr with
    | Except.error e => Except.error e
    | Except.ok none => Except.error PingError.cannotFindSourceAddress
    | Except.ok (some _) =>
      match submitAll6 resolve tr method tests rest with
      | Except.error e => Except.error e
      | Except.ok units =>
        Except.ok ((List.range tests).map (fun k =>
          (h.addr, threads_ping6 (tr h.addr k) method (dstPortOf method h))) ++ units)

/-- The drain loop of `ping6` (ping.rs lines 422-460): the pushes are written
inline in the source; a task error pushes an Error status and no rtt. -/
def drainInsert6
    (msgs : List (Addr × Except PingError (PingStatus × Option Rtt))) :
    PingResults :=
  msgs.foldl (fun pr m =>
    match m.2 with
    | Except.ok (p, rtt) =>
      let pr2 := { pr with pings := assocPush pr.pings m.1 p }
      match rtt with
      | some t => { pr2 with rtts := assocPush pr2.rtts m.1 t }
      | none => pr2
    | Except.error _ =>
      { pr with pings := assocPush pr.pings m.1 PingStatus.Error })
    PingResults.new

/-- ping6 (ping.rs lines 371-464). -/
def ping6 (resolve : Addr → Except PingError (Option Addr))
    (tr : Addr → Nat → TransportV6) (method : PingMethods) (hosts : List Host)
    (tests : Nat)
    (complete : List (Addr × Except PingError (PingStatus × Option Rtt)) →
      List (Addr × Except PingError (PingStatus × Option Rtt))) :
    Except PingError PingResults :=
  match submitAll6 resolve tr method tests hosts with
  | Except.error e => Except.error e
  | Except.ok units => Except.ok ((drainInsert6 (complete units)).enrichment)

/-- The status sequence a finished PingResults holds for an address. -/
def statusesAt (r : PingResults) (a : Addr) : List PingStatus :=
  ((r.pings.find? (fun p => p.1 = a)).map Prod.snd).getD []

/-- All latency samples present in the rtts map, across all targets. -/
def allSamples (r : PingResults) : List Rtt :=
  r.rtts.foldl (fun acc p => acc ++ p.2) []

/-- The status one drained message contributes: the classification on
success, Error on a task error. -/
def trialStatus (m : Addr × Except PingError (PingStatus × Option Rtt)) :
    PingStatus :=
  match m.2 with
  | Except.ok (p, _) => p
  | Except.error _ => PingStatus.Error

/-- Lookup in an association list, defaulting to the empty sequence. -/
def entryAt {α : Type} (m : List (Addr × List α)) (a : Addr) : List α :=
  ((m.find? (fun p => p.1 = a)).map Prod.snd).getD []

/-- The matches a successful stage attempt contributed (none on error). -/
def okMatches (x : Except Unit (List VsMatch)) : List VsMatch :=
  match x with
  | Except.ok r => r
  | Except.error _ => []

/-- Spec-side description of the TCP continuation stage: walk the database in
order, attempt exactly the gated probes, accumulate every attempt's matches
and record every attempted probe name. -/
def tcpStageSpecAux (env : Nat → Except Unit (List (List Nat))) (dst_port : Nat)
    (only_tcp_recommended : Bool) (intensity : Nat) :
    List ServiceProbe → Nat → List VsMatch × List String
  | [], _ => ([], [])
  | sp :: rest, i =>
    if tcpGate dst_port only_tcp_recommended intensity sp then
      let r := tcpStageSpecAux env dst_port only_tcp_recommended intensity rest (i + 1)
      (okMatches (runTcpProbe (env i) sp) ++ r.1, sp.probe.probename :: r.2)
    else tcpStageSpecAux env dst_port only_tcp_recommended intensity rest i

/-- Spec-side description of the UDP fallback stage, analogous to
`tcpStageSpecAux`. -/
def udpStageSpecAux (env : Nat → Except Unit (Option (List Nat))) (dst_port : Nat)
    (only_udp_recommended : Bool) (intensity : Nat) :
    List ServiceProbe → Nat → List VsMatch × List String
  | [], _ => ([], [])
  | sp :: rest, i =>
    if udpGate dst_port only_udp_recommended intensity sp then
      let r := udpStageSpecAux env dst_port only_udp_recommended intensity rest (i + 1)
      (okMatches (runUdpProbe (env i) sp) ++ r.1, sp.probe.probename :: r.2)
    else udpStageSpecAux env dst_port only_udp_recommended intensity rest i

/-- Fixture: an environment whose initial TCP connect fails, while the UDP
socket would work and would deliver a datagram to any probe. -/
def envConnectFail : VsEnv :=
  { connect := none,
    udpSetup := Except.ok (),
    udpEnv := fun _ => Except.ok (some [1]) }

/-- Fixture: a UDP database entry recommending port 53 and matching any
response. -/
def udpSpRec : ServiceProbe :=
  { probe := { probename := "U1", protocol := ProbesProtocol.Udp, probestring := "x" },
    rarity := none,
    ports := some [53],
    sslports := none,
    check := fun _ => [{ name := "udpmatch" }] }

/-- Fixture: a TCP database entry named A that matches any response. -/
def spA : ServiceProbe :=
  { probe := { probename := "A", protocol := ProbesProtocol.Tcp, probestring := "pa" },
    rarity := none,
    ports := none,
    sslports := none,
    check := fun _ => [{ name := "mA" }] }

/-- Fixture: a TCP database entry named B that matches any response. -/
def spB : ServiceProbe :=
  { probe := { probename := "B", protocol := ProbesProtocol.Tcp, probestring := "pb" },
    rarity := none,
    ports := none,
    sslports := none,
    check := fun _ => [{ name := "mB" }] }

/-- Fixture: a stream answering every continuation probe with one byte. -/
def contEnvC2 : Nat → Except Unit (List (List Nat)) :=
  fun _ => Except.ok [[65]]

/-- Fixture: a UDP socket on which every recv times out. -/
def udpEnvNone : Nat → Except Unit (Option (List Nat)) :=
  fun _ => Except.ok none

/-- Fixture: a NULL database entry matching exactly the responses whose first
byte is 7. -/
def nullSpC3 : ServiceProbe :=
  { probe := { probename := "NULL", protocol := ProbesProtocol.Tcp, probestring := "" },
    rarity := none,
    ports := none,
    sslports := none,
    check := fun bs => if bs.headD 0 = 7 then [{ name := "svc" }] else [] }

/-- Fixture: a peer that sends byte 7, then on a second read byte 8. -/
def c3chunks : List (List Nat) := [[7], [8]]

/-- Fixture: an IPv4 transport answering every scan with a fixed verdict. -/
def constTrV4 (v : PortStatus) (rtt : Option Rtt) : TransportV4 :=
  { syn := fun _ => Except.ok (v, rtt),
    ack := fun _ => Except.ok (v, rtt),
    udp := fun _ => Except.ok (v, rtt),
    icmp := Except.ok (PingStatus.Up, rtt) }

/-- Fixture: an IPv6 transport answering every scan with a fixed verdict. -/
def constTrV6 (v : PortStatus) (rtt : Option Rtt) : TransportV6 :=
  { syn := fun _ => Except.ok (v, rtt),
    ack := fun _ => Except.ok (v, rtt),
    udp := fun _ => Except.ok (v, rtt),
    icmpv6 := Except.ok (PingStatus.Up, rtt) }

/-- Fixture: a hop oracle whose terminal-hop signal first fires at TTL 3. -/
def sendHit3 : Nat → Except Unit Bool :=
  fun t => Except.ok (t == 3)

/-- Fixture: a hop oracle that never sees the terminal-hop signal. -/
def sendNever : Nat → Except Unit Bool :=
  fun _ => Except.ok false

/-- Fixture: source-address resolution that always succeeds. -/
def resolveW : Addr → Except PingError (Option Addr) :=
  fun _ => Except.ok (some 0)

/-- Fixture: every trial of every IPv4 target sees an Open port, no rtt. -/
def trW4 : Addr → Nat → TransportV4 :=
  fun _ _ => constTrV4 PortStatus.Open none

/-- Fixture: every trial of every IPv6 target sees an Open port, no rtt. -/
def trW6 : Addr → Nat → TransportV6 :=
  fun _ _ => constTrV6 PortStatus.Open none

/-- Fixture: a two-host target with pairwise-distinct addresses. -/
def hostsW : List Host := [{ addr := 1, ports := [22] }, { addr := 2, ports := [] }]

/-- Fixture: raw results with three latency samples across two targets. -/
def rSamplesW : PingResults :=
  { pings := [], rtts := [(1, [1, 2]), (2, [3])], avg_rtt := none, alive_hosts := 0 }

/-- Fixture: raw results where addresses 1 and 3 have an Up among their
statuses and address 2 does not. -/
def rAliveW : PingResults :=
  { pings := [(1, [PingStatus.Up, PingStatus.Down]),
              (2, [PingStatus.Down, PingStatus.Error]),
              (3, [PingStatus.Error, PingStatus.Up, PingStatus.Up])],
    rtts := [], avg_rtt := none, alive_hosts := 0 }

/-- C1 counterexample input: the cascade run against `envConnectFail` with a
database holding a UDP probe that passes every gate for port 53. -/
theorem C1_connect_fail_counterexample :
    threads_vs_probe envConnectFail 53 false false false 7 [udpSpRec] =
      (Except.ok [], [], []) ∧
    udpGate 53 false 7 udpSpRec = true := by
  exact ⟨rfl, by decide⟩

/-- C1 (amended): when the initial TCP connect fails, threads_vs_probe
returns immediately with zero matches and attempts neither the TCP
continuation stage nor the UDP fallback stage. -/
theorem C1_connect_fail_returns_empty
    (udpSetup : Except Unit Unit) (udpEnv : Nat → Except Unit (Option (List Nat)))
    (dst_port : Nat) (only_null_probe only_tcp_recommended only_udp_recommended : Bool)
    (intensity : Nat) (service_probes : List ServiceProbe) :
    threads_vs_probe { connect := none, udpSetup := udpSetup, udpEnv := udpEnv }
        dst_port only_null_probe only_tcp_recommended only_udp_recommended
        intensity service_probes =
      (Except.ok [], [], []) := rfl

/-- C3: the NULL stage checks only the final read buffer, not the full
accumulated response.  Against a peer sending byte 7 and then byte 8, the
NULL entry matching responses that start with 7 is missed by the code while
the accumulated response does match it. -/
theorem C3_null_stage_checks_last_buffer :
    tcp_null_probe c3chunks [nullSpC3] = [] ∧
    tcp_null_probe_accumulated c3chunks [nullSpC3] = [{ name := "svc" }] := by
  constructor <;>
  · simp only [tcp_null_probe, tcp_null_probe_accumulated, c3chunks, readLoop,
      List.foldl_cons, List.foldl_nil, overlay, nullSpC3]
    simp only [List.nil_append, List.cons_append, List.length_cons, List.length_append,
      List.length_drop, zeroBuff, List.length_replicate, BUFF_SIZE, List.headD_cons]
    norm_num

/-- C7: Syn classifies Up exactly on an Open verdict and Ack classifies Up
exactly on an Unfiltered verdict, on both the IPv4 and the IPv6 paths. -/
theorem C7_syn_ack_classification (tr : TransportV4) (tr6 : TransportV6)
    (verdict : PortStatus) (rtt : Option Rtt) (dp : Option Nat) :
    (tr.syn (dp.getD SYN_PING_DEFAULT_PORT) = Except.ok (verdict, rtt) →
      threads_ping tr PingMethods.Syn dp = Except.ok
        ((if verdict = PortStatus.Open then PingStatus.Up else PingStatus.Down), rtt)) ∧
    (tr.ack (dp.getD ACK_PING_DEFAULT_PORT) = Except.ok (verdict, rtt) →
      threads_ping tr PingMethods.Ack dp = Except.ok
        ((if verdict = PortStatus.Unfiltered then PingStatus.Up else PingStatus.Down), rtt)) ∧
    (tr6.syn (dp.getD SYN_PING_DEFAULT_PORT) = Except.ok (verdict, rtt) →
      threads_ping6 tr6 PingMethods.Syn dp = Except.ok
        ((if verdict = PortStatus.Open then PingStatus.Up else PingStatus.Down), rtt)) ∧
    (tr6.ack (dp.getD ACK_PING_DEFAULT_PORT) = Except.ok (verdict, rtt) →
      threads_ping6 tr6 PingMethods.Ack dp = Except.ok
        ((if verdict = PortStatus.Unfiltered then PingStatus.Up else PingStatus.Down), rtt)) := by
  refine ⟨fun h => ?_, fun h => ?_, fun h => ?_, fun h => ?_⟩ <;>
    simp only [threads_ping, threads_ping6, h] <;> cases verdict <;> simp

/-- C7 witness: at the concrete always-Open IPv4/IPv6 transports, Syn
classifies Up while Ack classifies Down. -/
theorem C7_syn_ack_classification_witness :
    threads_ping (constTrV4 PortStatus.Open none) PingMethods.Syn none =
      Except.ok (PingStatus.Up, none) ∧
    threads_ping (constTrV4 PortStatus.Open none) PingMethods.Ack none =
      Except.ok (PingStatus.Down, none) ∧
    threads_ping6 (constTrV6 PortStatus.Open none) PingMethods.Syn none =
      Except.ok (PingStatus.Up, none) ∧
    threads_ping6 (constTrV6 PortStatus.Open none) PingMethods.Ack none =
      Except.ok (PingStatus.Down, none) := by
  have h := C7_syn_ack_classification (constTrV4 PortStatus.Open none)
    (constTrV6 PortStatus.Open none) PortStatus.Open none none
  exact ⟨by simpa using h.1 rfl, by simpa using h.2.1 rfl,
    by simpa using h.2.2.1 rfl, by simpa using h.2.2.2 rfl⟩

/-- C8: Udp classifies Up exactly on Open for the IPv4 path, and exactly on
Open or OpenOrFiltered for the IPv6 path. -/
theorem C8_udp_classification (tr : TransportV4) (tr6 : TransportV6)
    (verdict : PortStatus) (rtt : Option Rtt) (dp : Option Nat) :
    (tr.udp (dp.getD UDP_PING_DEFAULT_PORT) = Except.ok (verdict, rtt) →
      threads_ping tr PingMethods.Udp dp = Except.ok
        ((if verdict = PortStatus.Open then PingStatus.Up else PingStatus.Down), rtt)) ∧
    (tr6.udp (dp.getD UDP_PING_DEFAULT_PORT) = Except.ok (verdict, rtt) →
      threads_ping6 tr6 PingMethods.Udp dp = Except.ok
        ((if verdict = PortStatus.Open ∨ verdict = PortStatus.OpenOrFiltered
          then PingStatus.Up else PingStatus.Down), rtt)) := by
  refine ⟨fun h => ?_, fun h => ?_⟩ <;>
    simp only [threads_ping, threads_ping6, h] <;> cases verdict <;> simp

/-- C8 witness: an OpenOrFiltered UDP verdict classifies Down on the IPv4
path and Up on the IPv6 path. -/
theorem C8_udp_classification_witness :
    threads_ping (constTrV4 PortStatus.OpenOrFiltered none) PingMethods.Udp none =
      Except.ok (PingStatus.Down, none) ∧
    threads_ping6 (constTrV6 PortStatus.OpenOrFiltered none) PingMethods.Udp none =
      Except.ok (PingStatus.Up, none) := by
  have h := C8_udp_classification (constTrV4 PortStatus.OpenOrFiltered none)
    (constTrV6 PortStatus.OpenOrFiltered none) PortStatus.OpenOrFiltered none none
  exact ⟨by simpa using h.1 rfl, by simpa using h.2 rfl⟩

theorem getHopsAux_first_hit (send : Nat → Except Unit Bool) (K : Nat)
    (hK : send K = Except.ok true) :
    ∀ n a, a ≤ K → K < a + n → (∀ t, a ≤ t → t < K → send t = Except.ok false) →
      getHopsAux send (List.range' a n) = (Except.ok K, List.range' a (K + 1 - a)) := by
  intro n
  induction n with
  | zero => intro a h1 h2 _; omega
  | succ n ih =>
    intro a h1 h2 hlt
    rw [List.range'_succ]
    rcases eq_or_lt_of_le h1 with heq | hlt2
    · subst heq
      have hr : a + 1 - a = 1 := by omega
      simp [getHopsAux, hK, hr, List.range'_one]
    · have ha : send a = Except.ok false := hlt a le_rfl hlt2
      simp only [getHopsAux, ha]
      rw [ih (a + 1) hlt2 (by omega) (fun t ht1 ht2 => hlt t (by omega) ht2)]
      have h3 : K + 1 - a = (K + 1 - (a + 1)) + 1 := by omega
      rw [h3, List.range'_succ]

theorem getHopsAux_all_false (send : Nat → Except Unit Bool) :
    ∀ n a, (∀ t, a ≤ t → t < a + n → send t = Except.ok false) →
      getHopsAux send (List.range' a n) = (Except.ok 0, List.range' a n) := by
  intro n
  induction n with
  | zero => intro a _; simp [getHopsAux]
  | succ n ih =>
    intro a hall
    rw [List.range'_succ]
    have ha : send a = Except.ok false := hall a le_rfl (by omega)
    simp only [getHopsAux, ha]
    rw [ih (a + 1) (fun t ht1 ht2 => hall t (by omega) (by omega))]

theorem getHopsAux_ok (send : Nat → Except Unit Bool) :
    ∀ l : List Nat, (∀ t ∈ l, ∃ b, send t = Except.ok b) →
      ∃ v, (getHopsAux send l).1 = Except.ok v ∧ (v = 0 ∨ v ∈ l) := by
  intro l
  induction l with
  | nil => intro _; exact ⟨0, rfl, Or.inl rfl⟩
  | cons t ts ih =>
    intro hall
    obtain ⟨b, hb⟩ := hall t (List.mem_cons_self t ts)
    cases b with
    | true => exact ⟨t, by simp [getHopsAux, hb], Or.inr (List.mem_cons_self t ts)⟩
    | false =>
      obtain ⟨v, hv, hor⟩ := ih (fun x hx => hall x (List.mem_cons_of_mem t hx))
      refine ⟨v, by simp [getHopsAux, hb, hv], ?_⟩
      rcases hor with h0 | hmem
      · exact Or.inl h0
      · exact Or.inr (List.mem_cons_of_mem t hmem)

/-- C9: the hop sweep walks TTL 1..30 in ascending order.  If the
distinguishing signal first fires at TTL K (1 ≤ K ≤ 30) the sweep returns K
having probed exactly TTLs 1..K (none beyond K); if no TTL in 1..30 fires it
returns 0 having probed 1..30; and whenever the transport answers every
probe, the result is an Ok value at most 30 — no error, nothing outside
the range 0..30.  This holds for both ipv4_get_hops and ipv6_get_hops. -/
theorem C9_hop_sweep (send4 send6 : Nat → Except Unit Bool) (K : Nat) :
    (1 ≤ K → K ≤ 30 → send4 K = Except.ok true →
      (∀ t, 1 ≤ t → t < K → send4 t = Except.ok false) →
      ipv4_get_hops send4 = (Except.ok K, List.range' 1 K)) ∧
    ((∀ t, 1 ≤ t → t ≤ 30 → send4 t = Except.ok false) →
      ipv4_get_hops send4 = (Except.ok 0, List.range' 1 30)) ∧
    ((∀ t, 1 ≤ t → t ≤ 30 → ∃ b, send4 t = Except.ok b) →
      ∃ v, (ipv4_get_hops send4).1 = Except.ok v ∧ v ≤ 30) ∧
    (1 ≤ K → K ≤ 30 → send6 K = Except.ok true →
      (∀ t, 1 ≤ t → t < K → send6 t = Except.ok false) →
      ipv6_get_hops send6 = (Except.ok K, List.range' 1 K)) ∧
    ((∀ t, 1 ≤ t → t ≤ 30 → send6 t = Except.ok false) →
      ipv6_get_hops send6 = (Except.ok 0, List.range' 1 30)) ∧
    ((∀ t, 1 ≤ t → t ≤ 30 → ∃ b, send6 t = Except.ok b) →
      ∃ v, (ipv6_get_hops send6).1 = Except.ok v ∧ v ≤ 30) := by
  have range30 : ∀ t, t ∈ List.range' 1 30 ↔ 1 ≤ t ∧ t ≤ 30 := by
    intro t; rw [List.mem_range'_1]; omega
  refine ⟨fun h1 h2 hK hlt => ?_, fun hall => ?_, fun hok => ?_,
    fun h1 h2 hK hlt => ?_, fun hall => ?_, fun hok => ?_⟩
  · have := getHopsAux_first_hit send4 K hK 30 1 h1 (by omega) hlt
    simpa [ipv4_get_hops] using this
  · exact getHopsAux_all_false send4 30 1 (fun t ht1 ht2 => hall t ht1 (by omega))
  · obtain ⟨v, hv, hor⟩ := getHopsAux_ok send4 (List.range' 1 30)
      (fun t ht => hok t ((range30 t).mp ht).1 ((range30 t).mp ht).2)
    refine ⟨v, hv, ?_⟩
    rcases hor with h0 | hmem
    · omega
    · exact ((range30 v).mp hmem).2
  · have := getHopsAux_first_hit send6 K hK 30 1 h1 (by omega) hlt
    simpa [ipv6_get_hops] using this
  · exact getHopsAux_all_false send6 30 1 (fun t ht1 ht2 => hall t ht1 (by omega))
  · obtain ⟨v, hv, hor⟩ := getHopsAux_ok send6 (List.range' 1 30)
      (fun t ht => hok t ((range30 t).mp ht).1 ((range30 t).mp ht).2)
    refine ⟨v, hv, ?_⟩
    rcases hor with h0 | hmem
    · omega
    · exact ((range30 v).mp hmem).2

/-- C9 witness: against the oracle whose signal first fires at TTL 3 the
sweep returns 3 having probed exactly TTLs 1, 2, 3; against the silent
oracle it returns 0 having probed all of 1..30. -/
theorem C9_hop_sweep_witness :
    ipv4_get_hops sendHit3 = (Except.ok 3, [1, 2, 3]) ∧
    ipv6_get_hops sendNever = (Except.ok 0, List.range' 1 30) := by
  constructor
  · have h := (C9_hop_sweep sendHit3 sendNever 3).1 (by norm_num) (by norm_num) rfl
      (by
        intro t h1 h2
        have : t = 1 ∨ t = 2 := by omega
        rcases this with h | h <;> subst h <;> rfl)
    simpa using h
  · exact (C9_hop_sweep sendHit3 sendNever 3).2.2.2.2.1 (fun t _ _ => rfl)

theorem okMatches_ok (r : List VsMatch) : okMatches (Except.ok r) = r := rfl

theorem readLoop_single_pos : (readLoop [[65]]).2.length > 0 := by
  simp only [readLoop, List.foldl_cons, List.foldl_nil, overlay]
  simp only [List.nil_append, List.cons_append, List.length_cons, List.length_append,
    List.length_drop, zeroBuff, List.length_replicate, BUFF_SIZE]
  norm_num

theorem tcpStageSpecAux_names (env : Nat → Except Unit (List (List Nat)))
    (d : Nat) (o : Bool) (int : Nat) :
    ∀ (sps : List ServiceProbe) (i : Nat),
      (tcpStageSpecAux env d o int sps i).2 =
        (sps.filter (tcpGate d o int)).map (fun sp => sp.probe.probename) := by
  intro sps
  induction sps with
  | nil => intro i; rfl
  | cons sp rest ih =>
    intro i
    by_cases hg : tcpGate d o int sp <;> simp [tcpStageSpecAux, hg, ih]

theorem udpStageSpecAux_names (env : Nat → Except Unit (Option (List Nat)))
    (d : Nat) (o : Bool) (int : Nat) :
    ∀ (sps : List ServiceProbe) (i : Nat),
      (udpStageSpecAux env d o int sps i).2 =
        (sps.filter (udpGate d o int)).map (fun sp => sp.probe.probename) := by
  intro sps
  induction sps with
  | nil => intro i; rfl
  | cons sp rest ih =>
    intro i
    by_cases hg : udpGate d o int sp <;> simp [udpStageSpecAux, hg, ih]

theorem tcpContinueAux_spec (env : Nat → Except Unit (List (List Nat)))
    (d : Nat) (o : Bool) (int : Nat)
    (henv : ∀ i, ∃ cs, env i = Except.ok cs) :
    ∀ (sps : List ServiceProbe) (i : Nat) (ret : List VsMatch) (att : List String),
      tcpContinueAux env d o int sps i ret att =
        (Except.ok (ret ++ (tcpStageSpecAux env d o int sps i).1),
         att ++ (tcpStageSpecAux env d o int sps i).2) := by
  intro sps
  induction sps with
  | nil => intro i ret att; simp [tcpContinueAux, tcpStageSpecAux]
  | cons sp rest ih =>
    intro i ret att
    by_cases hg : tcpGate d o int sp
    · obtain ⟨cs, hcs⟩ := henv i
      by_cases hlen : (readLoop cs).2.length > 0 <;>
        simp [tcpContinueAux, tcpStageSpecAux, hg, hcs, runTcpProbe, okMatches,
          hlen, ih, List.append_assoc]
    · simp [tcpContinueAux, tcpStageSpecAux, hg, ih]

theorem udpAux_spec (env : Nat → Except Unit (Option (List Nat)))
    (d : Nat) (o : Bool) (int : Nat)
    (henv : ∀ i, ∃ oc, env i = Except.ok oc) :
    ∀ (sps : List ServiceProbe) (i : Nat) (ret : List VsMatch) (att : List String),
      udpAux env d o int sps i ret att =
        (Except.ok (ret ++ (udpStageSpecAux env d o int sps i).1),
         att ++ (udpStageSpecAux env d o int sps i).2) := by
  intro sps
  induction sps with
  | nil => intro i ret att; simp [udpAux, udpStageSpecAux]
  | cons sp rest ih =>
    intro i ret att
    by_cases hg : udpGate d o int sp
    · obtain ⟨oc, hoc⟩ := henv i
      cases oc with
      | none =>
        simp [udpAux, udpStageSpecAux, hg, hoc, runUdpProbe, okMatches, ih]
      | some c =>
        by_cases hlen : c.length > 0 <;>
          simp [udpAux, udpStageSpecAux, hg, hoc, runUdpProbe, okMatches,
            hlen, ih, List.append_assoc]
    · simp [udpAux, udpStageSpecAux, hg, ih]

/-- C2 counterexample input: a database of two gated TCP probes A and B that
both match, against a stream answering every probe.  The first attempted
probe A yields the match mA, yet B is still attempted (its name follows in
the trace and its match mB is accumulated), so a probe after the first
matching one IS sent. -/
theorem C2_first_match_counterexample :
    tcp_continue_probe contEnvC2 80 false 7 [spA, spB] =
      (Except.ok [{ name := "mA" }, { name := "mB" }], ["A", "B"]) := by
  have h := tcpContinueAux_spec contEnvC2 80 false 7
    (fun i => ⟨[[65]], rfl⟩) [spA, spB] 0 [] []
  simp only [tcp_continue_probe] at h ⊢
  rw [h]
  simp [tcpStageSpecAux, tcpGate, spA, spB, tcpPortsOf, contEnvC2, runTcpProbe,
    okMatches, readLoop_single_pos]

/-- C2 (amended): within the TCP continuation stage and the UDP fallback
stage, probes are attempted in database order and EVERY gated probe is
attempted — a probe yielding a match does not stop the stage; all matches
are accumulated.  The stage-level short-circuit is real: when the TCP
continuation stage yields at least one match, the cascade stops and no UDP
probe is attempted. -/
theorem C2_stage_order_and_cascade_stop
    (cenv : Nat → Except Unit (List (List Nat)))
    (uenv : Nat → Except Unit (Option (List Nat)))
    (dst_port : Nat) (otr our : Bool) (intensity : Nat)
    (sps : List ServiceProbe)
    (hT : ∀ i, ∃ cs, cenv i = Except.ok cs)
    (hU : ∀ i, ∃ oc, uenv i = Except.ok oc) :
    tcp_continue_probe cenv dst_port otr intensity sps =
      (Except.ok (tcpStageSpecAux cenv dst_port otr intensity sps 0).1,
        (tcpStageSpecAux cenv dst_port otr intensity sps 0).2) ∧
    (tcpStageSpecAux cenv dst_port otr intensity sps 0).2 =
      (sps.filter (tcpGate dst_port otr intensity)).map (fun sp => sp.probe.probename) ∧
    udp_probe (Except.ok ()) uenv dst_port our intensity sps =
      (Except.ok (udpStageSpecAux uenv dst_port our intensity sps 0).1,
        (udpStageSpecAux uenv dst_port our intensity sps 0).2) ∧
    (udpStageSpecAux uenv dst_port our intensity sps 0).2 =
      (sps.filter (udpGate dst_port our intensity)).map (fun sp => sp.probe.probename) ∧
    (∀ (nullChunks : List (List Nat)) (us : Except Unit Unit)
        (r : List VsMatch) (att : List String),
      tcp_null_probe nullChunks sps = [] →
      tcp_continue_probe cenv dst_port otr intensity sps = (Except.ok r, att) →
      r ≠ [] →
      threads_vs_probe
          { connect := some (nullChunks, cenv), udpSetup := us, udpEnv := uenv }
          dst_port false otr our intensity sps =
        (Except.ok r, att, [])) := by
  refine ⟨?_, tcpStageSpecAux_names cenv dst_port otr intensity sps 0, ?_,
    udpStageSpecAux_names uenv dst_port our intensity sps 0, ?_⟩
  · simpa [tcp_continue_probe] using
      tcpContinueAux_spec cenv dst_port otr intensity hT sps 0 [] []
  · simpa [udp_probe] using
      udpAux_spec uenv dst_port our intensity hU sps 0 [] []
  · intro nullChunks us r att hnull hcont hr
    have hrlen : r.length > 0 := List.length_pos.mpr hr
    simp [threads_vs_probe, hnull, hcont, hrlen]

/-- C2 witness: the amended behaviour at the concrete two-probe database in
the order B then A — both gated probes are attempted in database order and
both matches accumulate. -/
theorem C2_stage_order_witness :
    tcp_continue_probe contEnvC2 80 false 7 [spB, spA] =
      (Except.ok [{ name := "mB" }, { name := "mA" }], ["B", "A"]) := by
  have h := C2_stage_order_and_cascade_stop contEnvC2 udpEnvNone 80 false false 7
    [spB, spA] (fun i => ⟨[[65]], rfl⟩) (fun i => ⟨none, rfl⟩)
  rw [h.1]
  simp [tcpStageSpecAux, tcpGate, spA, spB, tcpPortsOf, contEnvC2, runTcpProbe,
    okMatches, readLoop_single_pos]

theorem entryAt_cons {α : Type} (k2 : Addr) (vs : List α)
    (rest : List (Addr × List α)) (a : Addr) :
    entryAt ((k2, vs) :: rest) a = if k2 = a then vs else entryAt rest a := by
  by_cases h : k2 = a <;> simp [entryAt, List.find?_cons, h]

theorem entryAt_assocPush_same {α : Type} :
    ∀ (m : List (Addr × List α)) (k : Addr) (v : α),
      entryAt (assocPush m k v) k = entryAt m k ++ [v] := by
  intro m k v
  induction m with
  | nil => simp [assocPush, entryAt]
  | cons p rest ih =>
    obtain ⟨k2, vs⟩ := p
    by_cases hk : k2 = k
    · subst hk; simp [assocPush, entryAt_cons]
    · simp [assocPush, hk, entryAt_cons, ih]

theorem entryAt_assocPush_ne {α : Type} :
    ∀ (m : List (Addr × List α)) (k a : Addr) (v : α), a ≠ k →
      entryAt (assocPush m k v) a = entryAt m a := by
  intro m k a v hne
  induction m with
  | nil => simp [assocPush, entryAt_cons, entryAt, hne.symm]
  | cons p rest ih =>
    obtain ⟨k2, vs⟩ := p
    by_cases hk : k2 = k
    · subst hk
      simp [assocPush, entryAt_cons, hne.symm]
    · simp [assocPush, hk, entryAt_cons, ih]

theorem drainInsert_pings :
    ∀ (msgs : List (Addr × Except PingError (PingStatus × Option Rtt)))
      (pr : PingResults),
      (msgs.foldl (fun pr m =>
        match m.2 with
        | Except.ok (ping_status, rtt) => pr.insert m.1 ping_status rtt
        | Except.error _ => pr.insert m.1 PingStatus.Error none) pr).pings =
      msgs.foldl (fun l m => assocPush l m.1 (trialStatus m)) pr.pings := by
  intro msgs
  induction msgs with
  | nil => intro pr; rfl
  | cons m ms ih =>
    intro pr
    rw [List.foldl_cons, List.foldl_cons, ih]
    congr 1
    obtain ⟨a, res⟩ := m
    cases res with
    | ok pq => obtain ⟨p, q⟩ := pq; rfl
    | error e => rfl

theorem drainInsert6_pings :
    ∀ (msgs : List (Addr × Except PingError (PingStatus × Option Rtt)))
      (pr : PingResults),
      (msgs.foldl (fun pr m =>
        match m.2 with
        | Except.ok (p, rtt) =>
          let pr2 := { pr with pings := assocPush pr.pings m.1 p }
          match rtt with
          | some t => { pr2 with rtts := assocPush pr2.rtts m.1 t }
          | none => pr2
        | Except.error _ =>
          { pr with pings := assocPush pr.pings m.1 PingStatus.Error }) pr).pings =
      msgs.foldl (fun l m => assocPush l m.1 (trialStatus m)) pr.pings := by
  intro msgs
  induction msgs with
  | nil => intro pr; rfl
  | cons m ms ih =>
    intro pr
    rw [List.foldl_cons, List.foldl_cons, ih]
    congr 1
    obtain ⟨a, res⟩ := m
    cases res with
    | ok pq =>
      obtain ⟨p, q⟩ := pq
      cases q with
      | some t => rfl
      | none => rfl
    | error e => rfl

theorem entryAt_push_fold :
    ∀ (msgs : List (Addr × Except PingError (PingStatus × Option Rtt)))
      (l0 : List (Addr × List PingStatus)) (a : Addr),
      entryAt (msgs.foldl (fun l m => assocPush l m.1 (trialStatus m)) l0) a =
        entryAt l0 a ++ (msgs.filter (fun m => m.1 = a)).map trialStatus := by
  intro msgs
  induction msgs with
  | nil => intro l0 a; simp
  | cons m ms ih =>
    intro l0 a
    rw [List.foldl_cons, ih]
    by_cases hk : m.1 = a
    · rw [hk, entryAt_assocPush_same]
      simp [List.filter_cons, hk]
    · rw [entryAt_assocPush_ne _ _ _ _ (Ne.symm hk)]
      simp [List.filter_cons, hk]

theorem statusesAt_eq_entryAt (r : PingResults) (a : Addr) :
    statusesAt r a = entryAt r.pings a := rfl

theorem statusesAt_drainInsert
    (msgs : List (Addr × Except PingError (PingStatus × Option Rtt))) (a : Addr) :
    statusesAt (drainInsert msgs) a =
      (msgs.filter (fun m => m.1 = a)).map trialStatus := by
  rw [statusesAt_eq_entryAt]
  have h := drainInsert_pings msgs PingResults.new
  rw [show (drainInsert msgs).pings =
    msgs.foldl (fun l m => assocPush l m.1 (trialStatus m)) PingResults.new.pings from h]
  rw [entryAt_push_fold]
  simp [PingResults.new, entryAt]

theorem statusesAt_drainInsert6
    (msgs : List (Addr × Except PingError (PingStatus × Option Rtt))) (a : Addr) :
    statusesAt (drainInsert6 msgs) a =
      (msgs.filter (fun m => m.1 = a)).map trialStatus := by
  rw [statusesAt_eq_entryAt]
  have h := drainInsert6_pings msgs PingResults.new
  rw [show (drainInsert6 msgs).pings =
    msgs.foldl (fun l m => assocPush l m.1 (trialStatus m)) PingResults.new.pings from h]
  rw [entryAt_push_fold]
  simp [PingResults.new, entryAt]

theorem enrichment_pings (r : PingResults) : (r.enrichment).pings = r.pings := rfl

theorem enrichment_rtts (r : PingResults) : (r.enrichment).rtts = r.rtts := rfl

theorem countP_replicate_true (p : Addr → Bool) (b : Addr) (hp : p b = true) :
    ∀ n, (List.replicate n b).countP p = n := by
  intro n
  induction n with
  | zero => rfl
  | succ n ih => simp [List.replicate_succ, List.countP_cons, hp, ih]

theorem countP_replicate_false (p : Addr → Bool) (b : Addr) (hp : p b = false) :
    ∀ n, (List.replicate n b).countP p = 0 := by
  intro n
  induction n with
  | zero => rfl
  | succ n ih => simp [List.replicate_succ, List.countP_cons, hp, ih]

theorem submitAll_keys (resolve : Addr → Except PingError (Option Addr))
    (tr : Addr → Nat → TransportV4) (method : PingMethods) (tests : Nat) :
    ∀ (hosts : List Host) units,
      submitAll resolve tr method tests hosts = Except.ok units →
      units.map Prod.fst = hosts.flatMap (fun h => List.replicate tests h.addr) := by
  intro hosts
  induction hosts with
  | nil =>
    intro units hu
    simp only [submitAll] at hu
    cases hu
    rfl
  | cons h rest ih =>
    intro units hu
    simp only [submitAll] at hu
    cases hres : resolve h.addr with
    | error e => rw [hres] at hu; cases hu
    | ok o =>
      rw [hres] at hu
      cases o with
      | none => cases hu
      | some s =>
        cases hsub : submitAll resolve tr method tests rest with
        | error e => rw [hsub] at hu; cases hu
        | ok units2 =>
          rw [hsub] at hu
          cases hu
          rw [List.map_append, ih units2 hsub, List.map_map]
          simp [List.flatMap_cons, Function.comp_def,
            List.map_const', List.length_range]

theorem countP_flatMap_replicate (tests : Nat) :
    ∀ (hosts : List Host), (hosts.map Host.addr).Nodup →
      ∀ h ∈ hosts,
        ((hosts.flatMap (fun h2 => List.replicate tests h2.addr)).countP
          (fun x => x = h.addr)) = tests := by
  intro hosts
  induction hosts with
  | nil => intro _ h hmem; cases hmem
  | cons h2 rest ih =>
    intro hnodup h hmem
    rw [List.map_cons, List.nodup_cons] at hnodup
    obtain ⟨hnotin, hnodup2⟩ := hnodup
    rw [List.flatMap_cons, List.countP_append]
    rcases List.mem_cons.mp hmem with heq | hmem2
    · subst heq
      rw [countP_replicate_true _ _ (by simp)]
      have hz : ((rest.flatMap (fun h2 => List.replicate tests h2.addr)).countP
          (fun x => x = h.addr)) = 0 := by
        rw [List.countP_eq_zero]
        intro x hx
        simp only [List.mem_flatMap, List.mem_replicate] at hx
        obtain ⟨h3, hh3, _, hxeq⟩ := hx
        subst hxeq
        simp only [decide_eq_true_eq]
        intro hcontra
        exact hnotin (hcontra ▸ List.mem_map_of_mem Host.addr hh3)
      omega
    · have hne : h2.addr ≠ h.addr := by
        intro hcontra
        exact hnotin (hcontra ▸ List.mem_map_of_mem Host.addr hmem2)
      rw [countP_replicate_false _ _ (by simp [hne]), ih hnodup2 h hmem2]
      omega

theorem complete_units_count
    (resolve : Addr → Except PingError (Option Addr))
    (tr : Addr → Nat → TransportV4) (method : PingMethods) (hosts : List Host)
    (tests : Nat)
    (units : List (Addr × Except PingError (PingStatus × Option Rtt)))
    (done : List (Addr × Except PingError (PingStatus × Option Rtt)))
    (hnodup : (hosts.map Host.addr).Nodup)
    (hperm : done.Perm units)
    (hsub : submitAll resolve tr method tests hosts = Except.ok units) :
    ∀ h ∈ hosts, (done.filter (fun m => m.1 = h.addr)).length = tests := by
  intro h hmem
  rw [← List.countP_eq_length_filter, hperm.countP_eq]
  have hmap : units.countP (fun m => m.1 = h.addr) =
      (units.map Prod.fst).countP (fun x => x = h.addr) := by
    rw [List.countP_map]
    rfl
  rw [hmap, submitAll_keys resolve tr method tests hosts units hsub]
  exact countP_flatMap_replicate tests hosts hnodup h hmem

theorem submitAll6_keys (resolve : Addr → Except PingError (Option Addr))
    (tr : Addr → Nat → TransportV6) (method : PingMethods) (tests : Nat) :
    ∀ (hosts : List Host) units,
      submitAll6 resolve tr method tests hosts = Except.ok units →
      units.map Prod.fst = hosts.flatMap (fun h => List.replicate tests h.addr) := by
  intro hosts
  induction hosts with
  | nil =>
    intro units hu
    simp only [submitAll6] at hu
    cases hu
    rfl
  | cons h rest ih =>
    intro units hu
    simp only [submitAll6] at hu
    cases hres : resolve h.addr with
    | error e => rw [hres] at hu; cases hu
    | ok o =>
      rw [hres] at hu
      cases o with
      | none => cases hu
      | some s =>
        cases hsub : submitAll6 resolve tr method tests rest with
        | error e => rw [hsub] at hu; cases hu
        | ok units2 =>
          rw [hsub] at hu
          cases hu
          rw [List.map_append, ih units2 hsub, List.map_map]
          simp [List.flatMap_cons, Function.comp_def,
            List.map_const', List.length_range]

theorem complete_units_count6
    (resolve : Addr → Except PingError (Option Addr))
    (tr : Addr → Nat → TransportV6) (method : PingMethods) (hosts : List Host)
    (tests : Nat)
    (units : List (Addr × Except PingError (PingStatus × Option Rtt)))
    (done : List (Addr × Except PingError (PingStatus × Option Rtt)))
    (hnodup : (hosts.map Host.addr).Nodup)
    (hperm : done.Perm units)
    (hsub : submitAll6 resolve tr method tests hosts = Except.ok units) :
    ∀ h ∈ hosts, (done.filter (fun m => m.1 = h.addr)).length = tests := by
  intro h hmem
  rw [← List.countP_eq_length_filter, hperm.countP_eq]
  have hmap : units.countP (fun m => m.1 = h.addr) =
      (units.map Prod.fst).countP (fun x => x = h.addr) := by
    rw [List.countP_map]
    rfl
  rw [hmap, submitAll6_keys resolve tr method tests hosts units hsub]
  exact countP_flatMap_replicate tests hosts hnodup h hmem

theorem submitAll_ok (resolve : Addr → Except PingError (Option Addr))
    (tr : Addr → Nat → TransportV4) (method : PingMethods) (tests : Nat) :
    ∀ hosts : List Host, (∀ h ∈ hosts, ∃ s, resolve h.addr = Except.ok (some s)) →
      ∃ units, submitAll resolve tr method tests hosts = Except.ok units := by
  intro hosts
  induction hosts with
  | nil => intro _; exact ⟨[], rfl⟩
  | cons h rest ih =>
    intro hres
    obtain ⟨s, hs⟩ := hres h (List.mem_cons_self _ _)
    obtain ⟨units2, hu2⟩ := ih (fun x hx => hres x (List.mem_cons_of_mem _ hx))
    refine ⟨(List.range tests).map (fun k =>
      (h.addr, threads_ping (tr h.addr k) method (dstPortOf method h))) ++ units2, ?_⟩
    simp only [submitAll, hs, hu2]

theorem submitAll6_ok (resolve : Addr → Except PingError (Option Addr))
    (tr : Addr → Nat → TransportV6) (method : PingMethods) (tests : Nat) :
    ∀ hosts : List Host, (∀ h ∈ hosts, ∃ s, resolve h.addr = Except.ok (some s)) →
      ∃ units, submitAll6 resolve tr method tests hosts = Except.ok units := by
  intro hosts
  induction hosts with
  | nil => intro _; exact ⟨[], rfl⟩
  | cons h rest ih =>
    intro hres
    obtain ⟨s, hs⟩ := hres h (List.mem_cons_self _ _)
    obtain ⟨units2, hu2⟩ := ih (fun x hx => hres x (List.mem_cons_of_mem _ hx))
    refine ⟨(List.range tests).map (fun k =>
      (h.addr, threads_ping6 (tr h.addr k) method (dstPortOf method h))) ++ units2, ?_⟩
    simp only [submitAll6, hs, hu2]

theorem submitAll_icmpv6_error (resolve : Addr → Except PingError (Option Addr))
    (tr : Addr → Nat → TransportV4) (tests : Nat) :
    ∀ (hosts : List Host) units,
      submitAll resolve tr PingMethods.Icmpv6 tests hosts = Except.ok units →
      ∀ m ∈ units, m.2 = Except.error PingError.unsupportedPingMethod := by
  intro hosts
  induction hosts with
  | nil =>
    intro units hu
    simp only [submitAll] at hu
    cases hu
    intro m hm
    cases hm
  | cons h rest ih =>
    intro units hu
    simp only [submitAll] at hu
    cases hres : resolve h.addr with
    | error e => rw [hres] at hu; cases hu
    | ok o =>
      rw [hres] at hu
      cases o with
      | none => cases hu
      | some s =>
        cases hsub : submitAll resolve tr PingMethods.Icmpv6 tests rest with
        | error e => rw [hsub] at hu; cases hu
        | ok units2 =>
          rw [hsub] at hu
          cases hu
          intro m hm
          rcases List.mem_append.mp hm with hm1 | hm2
          · obtain ⟨k, _, hk⟩ := List.mem_map.mp hm1
            rw [← hk]
            rfl
          · exact ih units2 hsub m hm2

theorem submitAll6_icmp_error (resolve : Addr → Except PingError (Option Addr))
    (tr : Addr → Nat → TransportV6) (tests : Nat) :
    ∀ (hosts : List Host) units,
      submitAll6 resolve tr PingMethods.Icmp tests hosts = Except.ok units →
      ∀ m ∈ units, m.2 = Except.error PingError.unsupportedPingMethod := by
  intro hosts
  induction hosts with
  | nil =>
    intro units hu
    simp only [submitAll6] at hu
    cases hu
    intro m hm
    cases hm
  | cons h rest ih =>
    intro units hu
    simp only [submitAll6] at hu
    cases hres : resolve h.addr with
    | error e => rw [hres] at hu; cases hu
    | ok o =>
      rw [hres] at hu
      cases o with
      | none => cases hu
      | some s =>
        cases hsub : submitAll6 resolve tr PingMethods.Icmp tests rest with
        | error e => rw [hsub] at hu; cases hu
        | ok units2 =>
          rw [hsub] at hu
          cases hu
          intro m hm
          rcases List.mem_append.mp hm with hm1 | hm2
          · obtain ⟨k, _, hk⟩ := List.mem_map.mp hm1
            rw [← hk]
            rfl
          · exact ih units2 hsub m hm2

/-- C4: after a completed ping or ping6 run over pairwise-distinct target
addresses, every target's status sequence has length exactly the number of
requested trials — each submitted trial contributes exactly one status, and
transport failures are recorded as Error rather than dropped. -/
theorem C4_status_sequence_length
    (resolve : Addr → Except PingError (Option Addr))
    (tr : Addr → Nat → TransportV4) (tr6 : Addr → Nat → TransportV6)
    (method : PingMethods) (hosts : List Host) (tests : Nat)
    (complete : List (Addr × Except PingError (PingStatus × Option Rtt)) →
      List (Addr × Except PingError (PingStatus × Option Rtt)))
    (hnodup : (hosts.map Host.addr).Nodup)
    (hperm : ∀ units, (complete units).Perm units) :
    (∀ res, ping resolve tr method hosts tests complete = Except.ok res →
      ∀ h ∈ hosts, (statusesAt res h.addr).length = tests) ∧
    (∀ res, ping6 resolve tr6 method hosts tests complete = Except.ok res →
      ∀ h ∈ hosts, (statusesAt res h.addr).length = tests) := by
  constructor
  · intro res hrun h hmem
    cases hsub : submitAll resolve tr method tests hosts with
    | error e => rw [ping, hsub] at hrun; cases hrun
    | ok units =>
      rw [ping, hsub] at hrun
      have hres : res = (drainInsert (complete units)).enrichment :=
        (Except.ok.inj hrun).symm
      subst hres
      rw [statusesAt_eq_entryAt, enrichment_pings, ← statusesAt_eq_entryAt,
        statusesAt_drainInsert, List.length_map]
      exact complete_units_count resolve tr method hosts tests units
        (complete units) hnodup (hperm units) hsub h hmem
  · intro res hrun h hmem
    cases hsub : submitAll6 resolve tr6 method tests hosts with
    | error e => rw [ping6, hsub] at hrun; cases hrun
    | ok units =>
      rw [ping6, hsub] at hrun
      have hres : res = (drainInsert6 (complete units)).enrichment :=
        (Except.ok.inj hrun).symm
      subst hres
      rw [statusesAt_eq_entryAt, enrichment_pings, ← statusesAt_eq_entryAt,
        statusesAt_drainInsert6, List.length_map]
      exact complete_units_count6 resolve tr6 method hosts tests units
        (complete units) hnodup (hperm units) hsub h hmem

/-- C4 witness: a concrete two-host run with two trials per host yields
status sequences of length two for both addresses. -/
theorem C4_status_sequence_length_witness :
    ∃ res, ping resolveW trW4 PingMethods.Syn hostsW 2 id = Except.ok res ∧
      (statusesAt res 1).length = 2 ∧ (statusesAt res 2).length = 2 := by
  refine ⟨_, rfl, ?_, ?_⟩
  · exact (C4_status_sequence_length resolveW trW4 trW6 PingMethods.Syn hostsW 2 id
      (by decide) (fun units => List.Perm.refl units)).1 _ rfl
      { addr := 1, ports := [22] } (List.mem_cons_self _ _)
  · exact (C4_status_sequence_length resolveW trW4 trW6 PingMethods.Syn hostsW 2 id
      (by decide) (fun units => List.Perm.refl units)).1 _ rfl
      { addr := 2, ports := [] } (List.mem_cons_of_mem _ (List.mem_cons_self _ _))

theorem allSamples_fold :
    ∀ (l : List (Addr × List Rtt)) (acc : List Rtt),
      l.foldl (fun a p => a ++ p.2) acc = acc ++ l.foldl (fun a p => a ++ p.2) [] := by
  intro l
  induction l with
  | nil => intro acc; simp
  | cons p rest ih =>
    intro acc
    rw [List.foldl_cons, List.foldl_cons, ih, ih ([] ++ p.2)]
    simp [List.append_assoc]

theorem foldl_sum (l : List Rtt) : l.foldl (fun s t => s + t) 0 = l.sum :=
  List.sum_eq_foldl.symm

theorem totals_spec :
    ∀ (l : List (Addr × List Rtt)) (s0 : Rtt) (n0 : Nat),
      l.foldl (fun acc p =>
        (acc.1 + p.2.foldl (fun s t => s + t) 0, acc.2 + p.2.length)) (s0, n0) =
      (s0 + (l.foldl (fun a p => a ++ p.2) []).sum,
       n0 + (l.foldl (fun a p => a ++ p.2) []).length) := by
  intro l
  induction l with
  | nil => intro s0 n0; simp
  | cons p rest ih =>
    intro s0 n0
    rw [List.foldl_cons, List.foldl_cons, ih, allSamples_fold rest ([] ++ p.2)]
    simp [List.sum_append, foldl_sum, List.length_append, add_assoc]

theorem enrichment_avg (r : PingResults) :
    (r.enrichment).avg_rtt = if (allSamples r).length = 0 then none
      else some ((allSamples r).sum / ((allSamples r).length : Rtt)) := by
  simp only [PingResults.enrichment, allSamples]
  rw [totals_spec r.rtts 0 0]
  by_cases hl : (r.rtts.foldl (fun a p => a ++ p.2) []).length = 0 <;> simp [hl]

theorem submitAll_degenerate (resolve : Addr → Except PingError (Option Addr))
    (tr : Addr → Nat → TransportV4) (method : PingMethods) :
    ∀ (hosts : List Host) (tests : Nat) units,
      (tests = 0 ∨ hosts = []) →
      submitAll resolve tr method tests hosts = Except.ok units → units = [] := by
  intro hosts
  induction hosts with
  | nil =>
    intro tests units _ hu
    simp only [submitAll] at hu
    cases hu
    rfl
  | cons h rest ih =>
    intro tests units hdeg hu
    rcases hdeg with h0 | hnil
    · subst h0
      simp only [submitAll] at hu
      cases hres : resolve h.addr with
      | error e => rw [hres] at hu; cases hu
      | ok o =>
        rw [hres] at hu
        cases o with
        | none => cases hu
        | some s =>
          cases hsub : submitAll resolve tr method 0 rest with
          | error e => rw [hsub] at hu; cases hu
          | ok units2 =>
            rw [hsub] at hu
            cases hu
            simpa using ih 0 units2 (Or.inl rfl) hsub
    · cases hnil

/-- C5: after enrichment, avg_rtt is exactly the arithmetic mean of the
latency samples present in the rtts map across all targets, and none when
zero samples are present; a run with zero trials or an empty target list
produces an empty finalized result with no average. -/
theorem C5_avg_rtt_mean (r : PingResults) :
    ((r.enrichment).avg_rtt = if (allSamples r).length = 0 then none
      else some ((allSamples r).sum / ((allSamples r).length : Rtt))) ∧
    (∀ (resolve : Addr → Except PingError (Option Addr))
        (tr : Addr → Nat → TransportV4) (method : PingMethods)
        (hosts : List Host) (tests : Nat)
        (complete : List (Addr × Except PingError (PingStatus × Option Rtt)) →
          List (Addr × Except PingError (PingStatus × Option Rtt)))
        (res : PingResults),
      (tests = 0 ∨ hosts = []) →
      (∀ units, submitAll resolve tr method tests hosts = Except.ok units →
        (complete units).Perm units) →
      ping resolve tr method hosts tests complete = Except.ok res →
      res.pings = [] ∧ res.rtts = [] ∧ res.avg_rtt = none) := by
  refine ⟨enrichment_avg r, ?_⟩
  intro resolve tr method hosts tests complete res hdeg hperm hrun
  cases hsub : submitAll resolve tr method tests hosts with
  | error e => rw [ping, hsub] at hrun; cases hrun
  | ok units =>
    have hu0 : units = [] :=
      submitAll_degenerate resolve tr method hosts tests units hdeg hsub
    subst hu0
    have hc : complete [] = [] := (hperm [] hsub).eq_nil
    rw [ping, hsub] at hrun
    have hres : res = (drainInsert (complete [])).enrichment :=
      (Except.ok.inj hrun).symm
    rw [hc] at hres
    subst hres
    exact ⟨rfl, rfl, rfl⟩

/-- C5 witness: three samples 1, 2, 3 across two targets average to 2, and a
run over an empty target list finalizes with no average and empty maps. -/
theorem C5_avg_rtt_mean_witness :
    (rSamplesW.enrichment).avg_rtt = some 2 ∧
    (∃ res, ping resolveW trW4 PingMethods.Syn [] 0 id = Except.ok res ∧
      res.pings = [] ∧ res.rtts = [] ∧ res.avg_rtt = none) := by
  constructor
  · rw [(C5_avg_rtt_mean rSamplesW).1]
    norm_num [allSamples, rSamplesW]
  · refine ⟨_, rfl, ?_⟩
    exact (C5_avg_rtt_mean rSamplesW).2 resolveW trW4 PingMethods.Syn [] 0 id _
      (Or.inr rfl) (fun units _ => List.Perm.refl units) rfl

theorem alive_foldl_countP :
    ∀ (l : List (Addr × List PingStatus)) (n : Nat),
      l.foldl (fun acc p => if p.2.contains PingStatus.Up then acc + 1 else acc) n =
        n + l.countP (fun p => p.2.contains PingStatus.Up) := by
  intro l
  induction l with
  | nil => intro n; simp
  | cons p rest ih =>
    intro n
    rw [List.foldl_cons, List.countP_cons]
    by_cases hp : p.2.contains PingStatus.Up = true
    · rw [if_pos hp, ih (n + 1), if_pos hp]
      omega
    · rw [if_neg hp, ih n, if_neg hp]
      omega

theorem card_filter_up :
    ∀ (l : List (Addr × List PingStatus)), (l.map Prod.fst).Nodup →
      ((l.map Prod.fst).toFinset.filter
        (fun a => PingStatus.Up ∈ entryAt l a)).card =
        l.countP (fun p => p.2.contains PingStatus.Up) := by
  intro l
  induction l with
  | nil => intro _; simp
  | cons p rest ih =>
    obtain ⟨a, vs⟩ := p
    intro hnodup
    rw [List.map_cons, List.nodup_cons] at hnodup
    obtain ⟨hnotin, hnd⟩ := hnodup
    rw [List.map_cons, List.toFinset_cons, Finset.filter_insert]
    have hcongr : (rest.map Prod.fst).toFinset.filter
        (fun x => PingStatus.Up ∈ entryAt ((a, vs) :: rest) x) =
        (rest.map Prod.fst).toFinset.filter
        (fun x => PingStatus.Up ∈ entryAt rest x) := by
      apply Finset.filter_inj'.mpr
      intro x hx
      have hxa : ¬a = x := fun h => hnotin (h ▸ (List.mem_toFinset.mp hx))
      rw [entryAt_cons]
      simp [hxa]
    rw [hcongr, List.countP_cons]
    by_cases hup : vs.contains PingStatus.Up
    · have hha : PingStatus.Up ∈ entryAt ((a, vs) :: rest) a := by
        rw [entryAt_cons]
        simp only [if_pos rfl]
        exact List.elem_iff.mp hup
      rw [if_pos hha, Finset.card_insert_of_not_mem, ih hnd]
      · have hm := List.elem_iff.mp hup
        simp [hm]
      · intro hmem
        exact hnotin (List.mem_toFinset.mp (Finset.filter_subset _ _ hmem))
    · have hha : ¬(PingStatus.Up ∈ entryAt ((a, vs) :: rest) a) := by
        rw [entryAt_cons]
        simp only [if_pos rfl]
        exact fun hm => hup (List.elem_iff.mpr hm)
      rw [if_neg hha, ih hnd]
      have hm : PingStatus.Up ∉ vs := fun hm => hup (List.elem_iff.mpr hm)
      simp [hm]

/-- C6: after enrichment, alive_hosts is the number of distinct target
addresses whose status sequence contains at least one Up — each such address
counted exactly once no matter how many Up, Down or Error entries accompany
it. -/
theorem C6_alive_hosts_count (r : PingResults)
    (hnodup : (r.pings.map Prod.fst).Nodup) :
    (r.enrichment).alive_hosts =
      ((r.pings.map Prod.fst).toFinset.filter
        (fun a => PingStatus.Up ∈ statusesAt r a)).card := by
  have h1 : (r.enrichment).alive_hosts =
      r.pings.countP (fun p => p.2.contains PingStatus.Up) := by
    simp only [PingResults.enrichment]
    rw [alive_foldl_countP]
    omega
  rw [h1, ← card_filter_up r.pings hnodup]
  rfl

/-- C6 witness: of three targets, the two whose sequences contain an Up
(among Down and Error noise, one of them with two Ups) are counted once
each — alive_hosts is 2. -/
theorem C6_alive_hosts_count_witness :
    (rAliveW.enrichment).alive_hosts =
      ((rAliveW.pings.map Prod.fst).toFinset.filter
        (fun a => PingStatus.Up ∈ statusesAt rAliveW a)).card ∧
    (rAliveW.enrichment).alive_hosts = 2 := by
  constructor
  · exact C6_alive_hosts_count rAliveW (by decide)
  · rfl

/-- C10: Icmpv6 on the IPv4 path and Icmp on the IPv6 path raise the
unsupported-method error per trial; the dispatcher's drain loop records each
such trial as an Error classification, and the run completes with results
for every target and trial rather than aborting. -/
theorem C10_unsupported_method_per_trial
    (tr0 : TransportV4) (tr60 : TransportV6) (dp : Option Nat)
    (resolve : Addr → Except PingError (Option Addr))
    (tr : Addr → Nat → TransportV4) (tr6 : Addr → Nat → TransportV6)
    (hosts : List Host) (tests : Nat)
    (complete : List (Addr × Except PingError (PingStatus × Option Rtt)) →
      List (Addr × Except PingError (PingStatus × Option Rtt)))
    (hnodup : (hosts.map Host.addr).Nodup)
    (hres : ∀ h ∈ hosts, ∃ s, resolve h.addr = Except.ok (some s))
    (hperm : ∀ units, (complete units).Perm units) :
    threads_ping tr0 PingMethods.Icmpv6 dp =
      Except.error PingError.unsupportedPingMethod ∧
    threads_ping6 tr60 PingMethods.Icmp dp =
      Except.error PingError.unsupportedPingMethod ∧
    (∃ res, ping resolve tr PingMethods.Icmpv6 hosts tests complete = Except.ok res ∧
      ∀ h ∈ hosts, statusesAt res h.addr = List.replicate tests PingStatus.Error) ∧
    (∃ res, ping6 resolve tr6 PingMethods.Icmp hosts tests complete = Except.ok res ∧
      ∀ h ∈ hosts, statusesAt res h.addr = List.replicate tests PingStatus.Error) := by
  refine ⟨rfl, rfl, ?_, ?_⟩
  · obtain ⟨units, hsub⟩ :=
      submitAll_ok resolve tr PingMethods.Icmpv6 tests hosts hres
    refine ⟨(drainInsert (complete units)).enrichment, by rw [ping, hsub], ?_⟩
    intro h hmem
    rw [statusesAt_eq_entryAt, enrichment_pings, ← statusesAt_eq_entryAt,
      statusesAt_drainInsert]
    have hlen := complete_units_count resolve tr PingMethods.Icmpv6 hosts tests
      units (complete units) hnodup (hperm units) hsub h hmem
    have hall : ∀ b ∈ ((complete units).filter
        (fun m => m.1 = h.addr)).map trialStatus, b = PingStatus.Error := by
      intro b hb
      obtain ⟨m, hmf, hbe⟩ := List.mem_map.mp hb
      have hmu : m ∈ units := (hperm units).mem_iff.mp (List.mem_of_mem_filter hmf)
      have hm2 := submitAll_icmpv6_error resolve tr tests hosts units hsub m hmu
      rw [← hbe]
      simp [trialStatus, hm2]
    rw [List.eq_replicate_of_mem hall, List.length_map, hlen]
  · obtain ⟨units, hsub⟩ :=
      submitAll6_ok resolve tr6 PingMethods.Icmp tests hosts hres
    refine ⟨(drainInsert6 (complete units)).enrichment, by rw [ping6, hsub], ?_⟩
    intro h hmem
    rw [statusesAt_eq_entryAt, enrichment_pings, ← statusesAt_eq_entryAt,
      statusesAt_drainInsert6]
    have hlen := complete_units_count6 resolve tr6 PingMethods.Icmp hosts tests
      units (complete units) hnodup (hperm units) hsub h hmem
    have hall : ∀ b ∈ ((complete units).filter
        (fun m => m.1 = h.addr)).map trialStatus, b = PingStatus.Error := by
      intro b hb
      obtain ⟨m, hmf, hbe⟩ := List.mem_map.mp hb
      have hmu : m ∈ units := (hperm units).mem_iff.mp (List.mem_of_mem_filter hmf)
      have hm2 := submitAll6_icmp_error resolve tr6 tests hosts units hsub m hmu
      rw [← hbe]
      simp [trialStatus, hm2]
    rw [List.eq_replicate_of_mem hall, List.length_map, hlen]

/-- C10 witness: the concrete mismatched-method trial errors with the
unsupported-method error, and a concrete two-host, two-trial Icmpv6 run over
IPv4 completes with every trial of address 1 recorded as Error. -/
theorem C10_unsupported_method_per_trial_witness :
    threads_ping (constTrV4 PortStatus.Open none) PingMethods.Icmpv6 none =
      Except.error PingError.unsupportedPingMethod ∧
    (∃ res, ping resolveW trW4 PingMethods.Icmpv6 hostsW 2 id = Except.ok res ∧
      statusesAt res 1 = List.replicate 2 PingStatus.Error) := by
  have h := C10_unsupported_method_per_trial (constTrV4 PortStatus.Open none)
    (constTrV6 PortStatus.Open none) none resolveW trW4 trW6 hostsW 2 id
    (by decide) (fun h hm => ⟨0, rfl⟩) (fun units => List.Perm.refl units)
  refine ⟨h.1, ?_⟩
  obtain ⟨res, hrun, hst⟩ := h.2.2.1
  exact ⟨res, hrun, hst { addr := 1, ports := [22] } (List.mem_cons_self _ _)⟩

end Pistol
